import Mathlib

/-!
# Verification of the Cairo traffic dashboard streaming core

A shallow embedding of the streaming ingestion-and-aggregation engine of the
dashboard (`new.py`): event generation, bounded retention with eviction,
anomaly classification and the windowed aggregation queries.

Modelling conventions:
* Instants (`datetime` values) are integers (seconds); the ISO string
  `Timestamp` field of an event is a second rendering of the same instant and
  is identified with `ts`.
* Python floats are modelled as rationals; `int()` is truncation toward zero
  and `round(x, n)` rounds to the nearest multiple of `10 ^ (-n)` (the tie
  rule is immaterial to every statement below).
* `pandas` dataframes of events are lists of readings; boolean-mask filtering
  is `List.filter`, `iloc[-n:]` is `List.drop (length - n)`,
  `groupby` enumerates the distinct keys in ascending order, and
  `sort_values` is modelled as a stable sort by the value column.
-/

set_option maxRecDepth 10000

namespace CairoTraffic

open List

/-- Python `int()` on a rational: truncation toward zero. -/
def truncQ (x : ℚ) : ℤ := if 0 ≤ x then ⌊x⌋ else ⌈x⌉

/-- Python `round(x, n)`: round to the nearest multiple of `10 ^ (-n)`. -/
def roundTo (n : ℕ) (x : ℚ) : ℚ := (round (x * 10 ^ n) : ℤ) / 10 ^ n

/-- `MAX_EVENTS_KEEP` from the source: recent-event retention cap. -/
def MAX_EVENTS_KEEP : ℕ := 5000

/-- One entry of the `LOCATIONS` catalog. -/
structure Location where
  id : String
  name : String
  lat : ℚ
  lon : ℚ
  cap : ℤ
deriving DecidableEq, Repr

/-- The fixed `LOCATIONS` catalog from the source. -/
def LOCATIONS : List Location :=
  [ ⟨"LOC001", "Tahrir Square", 30.0444, 31.2357, 120⟩,
    ⟨"LOC002", "Ramses Square", 30.0626, 31.2497, 150⟩,
    ⟨"LOC003", "6th October Bridge", 30.0626, 31.2444, 100⟩,
    ⟨"LOC004", "Nasr City - Abbas El Akkad", 30.0515, 31.3381, 80⟩,
    ⟨"LOC005", "Heliopolis - Uruba Street", 30.0808, 31.3239, 90⟩,
    ⟨"LOC006", "Maadi Corniche", 29.9594, 31.2584, 60⟩,
    ⟨"LOC007", "Ahmed Orabi Square", 30.0618, 31.2001, 110⟩ ]

/-- `VEHICLE_TYPES` from the source. -/
def VEHICLE_TYPES : List String :=
  ["Car", "Taxi", "Bus", "Microbus", "Truck", "Motorcycle", "Delivery Van"]

/-- `WEATHER_CONDITIONS` from the source. -/
def WEATHER_CONDITIONS : List String :=
  ["Clear", "Cloudy", "Light Rain", "Heavy Rain", "Foggy", "Sandstorm"]

/-- `TRAFFIC_INCIDENTS` from the source. -/
def TRAFFIC_INCIDENTS : List String :=
  ["None", "Minor Accident", "Major Accident", "Vehicle Breakdown",
   "Road Construction", "Police Checkpoint"]

/-- One generated event (the dict built in `generate_realistic_traffic_data`). -/
structure Reading where
  ts : ℤ
  locationId : String
  locationName : String
  latitude : ℚ
  longitude : ℚ
  vehicleCount : ℤ
  averageSpeedKMH : ℚ
  dominantVehicleType : String
  weatherCondition : String
  trafficIncident : String
  congestionPercentage : ℚ
  isRushHour : Bool
  rushFactor : ℚ
deriving DecidableEq, Repr

/-- `append_event` from the source: append the event at the tail of the
session dataframe; if the result exceeds `MAX_EVENTS_KEEP` rows, keep only
the last `MAX_EVENTS_KEEP` rows (`iloc[-MAX_EVENTS_KEEP:]`). -/
def append_event (df : List Reading) (e : Reading) : List Reading :=
  let df2 := df ++ [e]
  if MAX_EVENTS_KEEP < df2.length then df2.drop (df2.length - MAX_EVENTS_KEEP) else df2

/-- `detect_anomaly` from the source: accumulate alert labels by the fixed
rules, in rule order. -/
def detect_anomaly (e : Reading) : List String :=
  let alerts : List String := []
  let alerts := if e.averageSpeedKMH < 10 then alerts ++ ["Low speed"] else alerts
  let alerts := if e.averageSpeedKMH > 100 then alerts ++ ["High speed"] else alerts
  let alerts :=
    if e.congestionPercentage > 120 then alerts ++ ["Over capacity"]
    else if e.congestionPercentage > 85 then alerts ++ ["High congestion"]
    else alerts
  let alerts :=
    if e.trafficIncident ≠ "None" then alerts ++ ["Incident: " ++ e.trafficIncident]
    else alerts
  alerts

/-- The anomaly rules exactly as the specification words them: each rule
contributes its label independently, in rule order, with the
over-capacity/high-congestion pair mutually exclusive. -/
def detectSpec (e : Reading) : List String :=
  (if e.averageSpeedKMH < 10 then ["Low speed"] else []) ++
  (if e.averageSpeedKMH > 100 then ["High speed"] else []) ++
  (if e.congestionPercentage > 120 then ["Over capacity"]
   else if e.congestionPercentage > 85 then ["High congestion"] else []) ++
  (if e.trafficIncident ≠ "None" then ["Incident: " ++ e.trafficIncident] else [])

/-- `calculate_rush_hour_factor` from the source, on the local hour of day. -/
def calculate_rush_hour_factor (hour : ℕ) : ℚ :=
  if 7 ≤ hour ∧ hour ≤ 10 then 1.5
  else if 18 ≤ hour ∧ hour ≤ 21 then 1.4
  else if hour ≤ 6 ∨ 22 ≤ hour then 0.4
  else 1.0

/-- Lower end of the `randint` range for the vehicle count:
`max(5, int(cap * 0.3 * rush_factor))`. -/
def min_vehicles (cap : ℤ) (rf : ℚ) : ℤ := max 5 (truncQ ((cap : ℚ) * 0.3 * rf))

/-- Upper end of the `randint` range for the vehicle count:
`min(cap, int(cap * 1.2 * rush_factor))`. -/
def max_vehicles (cap : ℤ) (rf : ℚ) : ℤ := min cap (truncQ ((cap : ℚ) * 1.2 * rf))

/-- The outcomes of all random draws consumed by one call of
`generate_realistic_traffic_data`, made explicit. -/
structure GenDraws where
  loc : Fin LOCATIONS.length
  hour : ℕ
  vdraw : ℤ
  spike : Bool
  speedAnom : Bool
  speedLowBand : Bool
  lowSample : ℚ
  highSample : ℚ
  baseSpeed : ℚ
  vtype : Fin VEHICLE_TYPES.length
  weather : Fin WEATHER_CONDITIONS.length
  incidentRoll : Bool
  incident : Fin TRAFFIC_INCIDENTS.length

/-- `generate_realistic_traffic_data` from the source, with every random draw
taken from `d`: `vdraw` stands for the `randint(min_vehicles, max_vehicles)`
result, `lowSample`/`highSample` for the two anomaly-band uniforms and
`baseSpeed` for `uniform(20, 80)`. -/
def generate_realistic_traffic_data (d : GenDraws) (now : ℤ) : Reading :=
  let location := LOCATIONS.get d.loc
  let rush_factor := calculate_rush_hour_factor d.hour
  let cap := location.cap
  let vehicle_count0 := d.vdraw
  let vehicle_count :=
    if d.spike then truncQ (min ((cap : ℚ) * 1.5) ((vehicle_count0 : ℚ) * 1.8))
    else vehicle_count0
  let speed :=
    if d.speedAnom then (if d.speedLowBand then d.lowSample else d.highSample)
    else
      max 5 (min 110 (roundTo 1 (d.baseSpeed * (if rush_factor > 1 then 0.8 else 1.2))))
  let congestion_pct := roundTo 2 ((vehicle_count : ℚ) / (cap : ℚ) * 100)
  let incident :=
    if d.incidentRoll then TRAFFIC_INCIDENTS.get d.incident else "None"
  { ts := now
    locationId := location.id
    locationName := location.name
    latitude := location.lat
    longitude := location.lon
    vehicleCount := vehicle_count
    averageSpeedKMH := roundTo 2 speed
    dominantVehicleType := VEHICLE_TYPES.get d.vtype
    weatherCondition := WEATHER_CONDITIONS.get d.weather
    trafficIncident := incident
    congestionPercentage := congestion_pct
    isRushHour := decide (rush_factor > 1)
    rushFactor := roundTo 2 rush_factor }

/-- The Analytics-tab window query (`filtered = df[df["ts"] >= cutoff]`):
keep, in order, the readings at or after the cutoff instant. -/
def windowQ (rs : List Reading) (since : ℤ) : List Reading :=
  rs.filter (fun r => since ≤ r.ts)

/-- The four metrics of the Overview tab. -/
structure Snapshot where
  totalEvents : ℕ
  recentEvents : ℕ
  avgSpeed : ℚ
  avgCong : ℚ
deriving DecidableEq, Repr

/-- Arithmetic mean of a list of rationals (`Series.mean`). -/
def listMean (xs : List ℚ) : ℚ := xs.sum / xs.length

/-- The Overview-tab snapshot computation: on an empty dataframe the tab
shows the no-data placeholder (`none`); otherwise it reports the total
count, the count in the last five minutes and the mean speed/congestion over
that window, falling back to the latest reading when the window is empty. -/
def snapshotMetrics (rs : List Reading) (now : ℤ) : Option Snapshot :=
  match rs.getLast? with
  | none => none
  | some latest =>
    let recent := windowQ rs (now - 5 * 60)
    some
      { totalEvents := rs.length
        recentEvents := recent.length
        avgSpeed := roundTo 2 (if recent.isEmpty then latest.averageSpeedKMH
          else listMean (recent.map (·.averageSpeedKMH)))
        avgCong := roundTo 2 (if recent.isEmpty then latest.congestionPercentage
          else listMean (recent.map (·.congestionPercentage))) }

/-- Comparator used by the model of `sort_values(ascending=False)` on the
mean-congestion column: descending by value. -/
def congDescLe (a b : String × ℚ) : Bool := decide (b.2 ≤ a.2)

/-- Comparator spelling out the order the specification claims for the
top-congested table: descending mean congestion, ties by location name
ascending. -/
def congLexLe (a b : String × ℚ) : Bool :=
  decide (b.2 < a.2 ∨ (a.2 = b.2 ∧ a.1 ≤ b.1))

/-- The Prop form of `congLexLe`. -/
def CongLex (a b : String × ℚ) : Prop := b.2 < a.2 ∨ (a.2 = b.2 ∧ a.1 ≤ b.1)

/-- The distinct location names of the readings, in ascending order: the keys
enumerated by `groupby("LocationName")` (pandas sorts group keys). -/
def groupKeys (rs : List Reading) : List String :=
  ((rs.map (·.locationName)).dedup).mergeSort (fun a b => decide (a ≤ b))

/-- Mean congestion percentage of the readings at one location
(`groupby(...)["CongestionPercentage"].mean()` for that key). -/
def meanCong (rs : List Reading) (name : String) : ℚ :=
  listMean ((rs.filter (fun r => r.locationName == name)).map (·.congestionPercentage))

/-- The `toploc` table of the Analytics tab: per-location mean congestion,
sorted descending by the mean (`sort_values(ascending=False)`, modelled as a
stable sort), first 10 rows (`head(10)`). -/
def toploc (rs : List Reading) : List (String × ℚ) :=
  ((((groupKeys rs).map (fun n => (n, meanCong rs n))).mergeSort congDescLe).take 10)

/-- The same table as the specification words it: group readings by location
name, take each group's mean congestion, sort descending by mean with ties by
name ascending, and return the first 10 rows. -/
def toplocSpec (rs : List Reading) : List (String × ℚ) :=
  ((((rs.map (·.locationName)).dedup).map (fun n => (n, meanCong rs n))).mergeSort
    congLexLe).take 10

/-- One record of the alert log (`st.session_state.alerts`): the triggering
reading's timestamp and location name, the joined category labels, and the
raw reading itself. -/
structure AlertRecord where
  timestamp : ℤ
  location : String
  event : String
  raw : Reading
deriving DecidableEq, Repr

/-- The alert record built for a reading whose detection fired. -/
def mkAlert (ev : Reading) : AlertRecord :=
  { timestamp := ev.ts
    location := ev.locationName
    event := String.intercalate ", " (detect_anomaly ev)
    raw := ev }

/-- The mutable session state of the dashboard: the event dataframe and the
alert list. -/
structure DashState where
  df : List Reading
  alerts : List AlertRecord
deriving DecidableEq, Repr

/-- One simulator tick: append the new reading to the store, run detection,
and append an alert record exactly when detection returned a non-empty list
(`if detected:`). -/
def tick (s : DashState) (ev : Reading) : DashState :=
  { df := append_event s.df ev
    alerts :=
      if (detect_anomaly ev).isEmpty then s.alerts else s.alerts ++ [mkAlert ev] }

/-- A concrete reading used for witness instantiations. -/
def mkReading (i : ℤ) : Reading :=
  { ts := i
    locationId := "LOC001"
    locationName := "Tahrir Square"
    latitude := 30.0444
    longitude := 31.2357
    vehicleCount := 50
    averageSpeedKMH := 40
    dominantVehicleType := "Car"
    weatherCondition := "Clear"
    trafficIncident := "None"
    congestionPercentage := 41.67
    isRushHour := false
    rushFactor := 1 }

/-- The reading of Scenario C: speed 8.0, a minor-accident incident, ordinary
congestion. -/
def scenarioC : Reading :=
  { ts := 0
    locationId := "LOC003"
    locationName := "6th October Bridge"
    latitude := 30
    longitude := 31
    vehicleCount := 50
    averageSpeedKMH := 8
    dominantVehicleType := "Car"
    weatherCondition := "Clear"
    trafficIncident := "Minor Accident"
    congestionPercentage := 50
    isRushHour := false
    rushFactor := 1 }

/-- A concrete outcome of the generator's random draws, used for witness
instantiations (noon, first catalog location, no spike, base-speed path). -/
def sampleDraws : GenDraws :=
  { loc := ⟨0, by decide⟩
    hour := 12
    vdraw := 50
    spike := false
    speedAnom := false
    speedLowBand := false
    lowSample := 10
    highSample := 90
    baseSpeed := 50
    vtype := ⟨0, by decide⟩
    weather := ⟨0, by decide⟩
    incidentRoll := false
    incident := ⟨0, by decide⟩ }

lemma append_event_eq (df : List Reading) (e : Reading) :
    append_event df e = (df ++ [e]).drop ((df.length + 1) - MAX_EVENTS_KEEP) := by
  unfold append_event
  simp only [List.length_append, List.length_singleton]
  split
  · rfl
  · rw [Nat.sub_eq_zero_of_le (by omega), List.drop_zero]

lemma append_event_length (df : List Reading) (e : Reading) :
    (append_event df e).length ≤ MAX_EVENTS_KEEP := by
  rw [append_event_eq]
  simp only [List.length_drop, List.length_append, List.length_singleton]
  have : 0 < MAX_EVENTS_KEEP := by decide
  omega

lemma foldl_append_event (es : List Reading) :
    ∀ df : List Reading, df.length ≤ MAX_EVENTS_KEEP →
      es.foldl append_event df = (df ++ es).drop ((df.length + es.length) - MAX_EVENTS_KEEP) := by
  induction es with
  | nil =>
      intro df h
      simp only [List.foldl_nil, List.append_nil, List.length_nil, Nat.add_zero]
      rw [Nat.sub_eq_zero_of_le h, List.drop_zero]
  | cons e es ih =>
      intro df h
      rw [List.foldl_cons, ih (append_event df e) (append_event_length df e),
        append_event_eq]
      have hd : (df.length + 1) - MAX_EVENTS_KEEP ≤ (df ++ [e]).length := by
        simp only [List.length_append, List.length_singleton]; omega
      have h1 : ((df ++ [e]) ++ es).drop ((df.length + 1) - MAX_EVENTS_KEEP)
          = (df ++ [e]).drop ((df.length + 1) - MAX_EVENTS_KEEP) ++ es := by
        rw [List.drop_append_eq_append_drop, Nat.sub_eq_zero_of_le hd, List.drop_zero]
      rw [← h1, List.drop_drop]
      have h2 : (df ++ [e]) ++ es = df ++ e :: es := by simp
      rw [h2]
      have h4 : ∀ a b : ℕ, a = b →
          (df ++ e :: es).drop a = (df ++ e :: es).drop b := by
        intro a b hab; rw [hab]
      apply h4
      simp only [List.length_drop, List.length_append, List.length_singleton,
        List.length_cons, List.length_nil]
      omega

/-- C1: for every sequence of `append_event` calls, immediately after each
append (with the trim it performs) the store's size is at most
`MAX_EVENTS_KEEP = 5000`; in particular any store reached from the empty
store by appends respects the cap. -/
theorem append_capacity_invariant :
    (∀ (df : List Reading) (e : Reading),
      (append_event df e).length ≤ MAX_EVENTS_KEEP) ∧
    (∀ es : List Reading, (es.foldl append_event []).length ≤ MAX_EVENTS_KEEP) := by
  refine ⟨append_event_length, ?_⟩
  intro es
  have h : ∀ df : List Reading, df.length ≤ MAX_EVENTS_KEEP →
      (es.foldl append_event df).length ≤ MAX_EVENTS_KEEP := by
    induction es with
    | nil => intro df h; simpa using h
    | cons e es ih =>
        intro df h
        rw [List.foldl_cons]
        exact ih _ (append_event_length df e)
  exact h [] (by simp)

/-- C2: appending `MAX_EVENTS_KEEP + k` readings (`k ≥ 1`) to the empty store
leaves exactly the last `MAX_EVENTS_KEEP` appended readings in their original
relative order: the result is `es.drop k`, has size `MAX_EVENTS_KEEP`, and its
first element is the `(k+1)`-st appended reading. -/
theorem eviction_keeps_last (es : List Reading) (k : ℕ)
    (hlen : es.length = MAX_EVENTS_KEEP + k) (hk : 1 ≤ k) :
    es.foldl append_event [] = es.drop k ∧
    (es.foldl append_event []).length = MAX_EVENTS_KEEP ∧
    (es.foldl append_event []).head? = es[k]? := by
  have h := foldl_append_event es [] (by simp)
  simp only [List.nil_append, List.length_nil, Nat.zero_add] at h
  have hk' : es.length - MAX_EVENTS_KEEP = k := by omega
  rw [hk'] at h
  refine ⟨h, ?_, ?_⟩
  · rw [h, List.length_drop]; omega
  · rw [h, List.head?_drop]

/-- Witness for C2 at the concrete input of Scenario E: 5005 readings,
capacity 5000; the survivors are the last 5000 and the head is the 6th
appended reading. -/
theorem eviction_keeps_last_witness :
    ((List.range 5005).map (fun i : ℕ => mkReading (i : ℤ))).foldl append_event [] =
      ((List.range 5005).map (fun i : ℕ => mkReading (i : ℤ))).drop 5 ∧
    (((List.range 5005).map (fun i : ℕ => mkReading (i : ℤ))).foldl append_event []).length =
      MAX_EVENTS_KEEP ∧
    (((List.range 5005).map (fun i : ℕ => mkReading (i : ℤ))).foldl append_event []).head? =
      ((List.range 5005).map (fun i : ℕ => mkReading (i : ℤ)))[5]? :=
  eviction_keeps_last _ 5 (by simp; decide) (by decide)

lemma round_mono {x y : ℚ} (h : x ≤ y) : round x ≤ round y := by
  rw [round_eq, round_eq]
  exact Int.floor_mono (by linarith)

lemma le_roundTo_of_le (n : ℕ) (a : ℤ) {x : ℚ} (h : (a : ℚ) / 10 ^ n ≤ x) :
    (a : ℚ) / 10 ^ n ≤ roundTo n x := by
  have hp : (0 : ℚ) < 10 ^ n := by positivity
  have hax : (a : ℚ) ≤ x * 10 ^ n := by rwa [div_le_iff hp] at h
  have hr : a ≤ round (x * 10 ^ n) := by
    have h2 := round_mono hax
    rwa [round_intCast] at h2
  unfold roundTo
  rw [div_le_div_iff hp hp]
  have : ((a : ℚ)) ≤ ((round (x * 10 ^ n) : ℤ) : ℚ) := by exact_mod_cast hr
  exact mul_le_mul_of_nonneg_right this (le_of_lt hp)

lemma roundTo_le_of_le (n : ℕ) (b : ℤ) {x : ℚ} (h : x ≤ (b : ℚ) / 10 ^ n) :
    roundTo n x ≤ (b : ℚ) / 10 ^ n := by
  have hp : (0 : ℚ) < 10 ^ n := by positivity
  have hax : x * 10 ^ n ≤ (b : ℚ) := by rwa [le_div_iff hp] at h
  have hr : round (x * 10 ^ n) ≤ b := by
    have h2 := round_mono hax
    rwa [round_intCast] at h2
  unfold roundTo
  rw [div_le_div_iff hp hp]
  have : ((round (x * 10 ^ n) : ℤ) : ℚ) ≤ ((b : ℚ)) := by exact_mod_cast hr
  exact mul_le_mul_of_nonneg_right this (le_of_lt hp)

lemma sub_half_le_roundTo (n : ℕ) (x : ℚ) : x - 1 / (2 * 10 ^ n) ≤ roundTo n x := by
  have hp : (0 : ℚ) < 10 ^ n := by positivity
  have h2 : x * 10 ^ n - (round (x * 10 ^ n) : ℚ) ≤ 1 / 2 :=
    (abs_le.mp (abs_sub_round (x * 10 ^ n))).2
  unfold roundTo
  rw [le_div_iff hp]
  have h3 : (x - 1 / (2 * 10 ^ n)) * 10 ^ n = x * 10 ^ n - 1 / 2 := by
    field_simp
    ring
  rw [h3]
  linarith

lemma le_truncQ {a : ℤ} {x : ℚ} (hx : 0 ≤ x) (h : (a : ℚ) ≤ x) : a ≤ truncQ x := by
  unfold truncQ
  rw [if_pos hx]
  exact Int.le_floor.mpr h

lemma truncQ_le {x : ℚ} (hx : 0 ≤ x) : (truncQ x : ℚ) ≤ x := by
  unfold truncQ
  rw [if_pos hx]
  exact Int.floor_le x

lemma cap_range : ∀ i : Fin LOCATIONS.length,
    60 ≤ (LOCATIONS.get i).cap ∧ (LOCATIONS.get i).cap ≤ 150 := by decide

lemma rush_factor_cases (hour : ℕ) :
    calculate_rush_hour_factor hour = 0.4 ∨ calculate_rush_hour_factor hour = 1.0 ∨
    calculate_rush_hour_factor hour = 1.4 ∨ calculate_rush_hour_factor hour = 1.5 := by
  unfold calculate_rush_hour_factor
  split_ifs <;> simp

/-- C3: `detect_anomaly` returns exactly the categories whose rule matches,
in fixed rule order, with the over-capacity/high-congestion pair mutually
exclusive; Scenario C (speed 8.0, incident "Minor Accident") yields exactly
`["Low speed", "Incident: Minor Accident"]`. -/
theorem detect_rule_order :
    (∀ e : Reading, detect_anomaly e = detectSpec e) ∧
    detect_anomaly scenarioC = ["Low speed", "Incident: Minor Accident"] := by
  constructor
  · intro e
    unfold detect_anomaly detectSpec
    split_ifs <;> simp
  · decide

/-- C5: generation is total: for every hour of day (hence every rush factor
in {0.4, 1.0, 1.4, 1.5}) and every location of the fixed catalog, the
vehicle-count lower bound `max(5, int(cap*0.3*rf))` does not exceed the upper
bound `min(cap, int(cap*1.2*rf))`, so the `randint` draw is well-defined. -/
theorem generator_randint_well_defined (hour : ℕ) (i : Fin LOCATIONS.length) :
    min_vehicles (LOCATIONS.get i).cap (calculate_rush_hour_factor hour) ≤
      max_vehicles (LOCATIONS.get i).cap (calculate_rush_hour_factor hour) := by
  rcases rush_factor_cases hour with h | h | h | h <;> rw [h] <;> fin_cases i <;>
    norm_num [min_vehicles, max_vehicles, truncQ, LOCATIONS, List.get]

/-- C4: whichever random branch is taken, the generated reading's
average speed lies in [5, 110]. -/
theorem speed_clamp (d : GenDraws) (now : ℤ)
    (hlow1 : 5 ≤ d.lowSample) (hlow2 : d.lowSample ≤ 15)
    (hhigh1 : 85 ≤ d.highSample) (hhigh2 : d.highSample ≤ 110) :
    5 ≤ (generate_realistic_traffic_data d now).averageSpeedKMH ∧
      (generate_realistic_traffic_data d now).averageSpeedKMH ≤ 110 := by
  have key : ∀ s : ℚ, 5 ≤ s → s ≤ 110 → 5 ≤ roundTo 2 s ∧ roundTo 2 s ≤ 110 := by
    intro s h1 h2
    constructor
    · have h := le_roundTo_of_le 2 500 (x := s) (by norm_num; linarith)
      norm_num at h
      exact h
    · have h := roundTo_le_of_le 2 11000 (x := s) (by norm_num; linarith)
      norm_num at h
      exact h
  unfold generate_realistic_traffic_data
  dsimp only
  apply key
  · by_cases ha : d.speedAnom
    · simp only [ha, if_true]
      by_cases hb : d.speedLowBand
      · simp only [hb, if_true]
        exact hlow1
      · simp only [hb, if_false, Bool.false_eq_true]
        linarith
    · simp only [ha, if_false, Bool.false_eq_true]
      exact le_max_left _ _
  · by_cases ha : d.speedAnom
    · simp only [ha, if_true]
      by_cases hb : d.speedLowBand
      · simp only [hb, if_true]
        linarith
      · simp only [hb, if_false, Bool.false_eq_true]
        exact hhigh2
    · simp only [ha, if_false, Bool.false_eq_true]
      exact max_le (by norm_num) (min_le_left _ _)

/-- Witness for C4 at a concrete draw outcome. -/
theorem speed_clamp_witness :
    (5 : ℚ) ≤ sampleDraws.lowSample ∧ sampleDraws.lowSample ≤ 15 ∧
    (85 : ℚ) ≤ sampleDraws.highSample ∧ sampleDraws.highSample ≤ 110 ∧
    (5 ≤ (generate_realistic_traffic_data sampleDraws 0).averageSpeedKMH ∧
      (generate_realistic_traffic_data sampleDraws 0).averageSpeedKMH ≤ 110) :=
  ⟨by norm_num [sampleDraws], by norm_num [sampleDraws], by norm_num [sampleDraws],
    by norm_num [sampleDraws],
    speed_clamp sampleDraws 0 (by norm_num [sampleDraws]) (by norm_num [sampleDraws])
      (by norm_num [sampleDraws]) (by norm_num [sampleDraws])⟩

/-- C9: every generated reading has `5 ≤ vehicleCount ≤ 1.5 * capacity`
(the congestion-spike multiplier is capped at 1.5·cap), and therefore
`0 < congestionPercentage ≤ 150`. -/
theorem vehicle_count_congestion_bounds (d : GenDraws) (now : ℤ)
    (h1 : min_vehicles (LOCATIONS.get d.loc).cap (calculate_rush_hour_factor d.hour) ≤
      d.vdraw)
    (h2 : d.vdraw ≤
      max_vehicles (LOCATIONS.get d.loc).cap (calculate_rush_hour_factor d.hour)) :
    5 ≤ (generate_realistic_traffic_data d now).vehicleCount ∧
    ((generate_realistic_traffic_data d now).vehicleCount : ℚ) ≤
      1.5 * ((LOCATIONS.get d.loc).cap : ℚ) ∧
    0 < (generate_realistic_traffic_data d now).congestionPercentage ∧
    (generate_realistic_traffic_data d now).congestionPercentage ≤ 150 := by
  obtain ⟨hc60, hc150⟩ := cap_range d.loc
  have hv5 : 5 ≤ d.vdraw := le_trans (le_max_left _ _) h1
  have hvcap : d.vdraw ≤ (LOCATIONS.get d.loc).cap := le_trans h2 (min_le_left _ _)
  have hc60' : (60 : ℚ) ≤ ((LOCATIONS.get d.loc).cap : ℚ) := by exact_mod_cast hc60
  have hc150' : ((LOCATIONS.get d.loc).cap : ℚ) ≤ 150 := by exact_mod_cast hc150
  have hv5' : (5 : ℚ) ≤ (d.vdraw : ℚ) := by exact_mod_cast hv5
  have hvcap' : (d.vdraw : ℚ) ≤ ((LOCATIONS.get d.loc).cap : ℚ) := by exact_mod_cast hvcap
  have hcpos : (0 : ℚ) < ((LOCATIONS.get d.loc).cap : ℚ) := by linarith
  have hcount : 5 ≤ (generate_realistic_traffic_data d now).vehicleCount ∧
      ((generate_realistic_traffic_data d now).vehicleCount : ℚ) ≤
        1.5 * ((LOCATIONS.get d.loc).cap : ℚ) := by
    unfold generate_realistic_traffic_data
    dsimp only
    by_cases hs : d.spike
    · simp only [hs, if_true]
      have hxnn : (0 : ℚ) ≤
          min (((LOCATIONS.get d.loc).cap : ℚ) * 1.5) ((d.vdraw : ℚ) * 1.8) :=
        le_min (by linarith) (by linarith)
      constructor
      · exact le_truncQ hxnn (le_min (by push_cast; linarith) (by push_cast; linarith))
      · calc (truncQ (min (((LOCATIONS.get d.loc).cap : ℚ) * 1.5)
                ((d.vdraw : ℚ) * 1.8)) : ℚ) ≤
              min (((LOCATIONS.get d.loc).cap : ℚ) * 1.5) ((d.vdraw : ℚ) * 1.8) :=
            truncQ_le hxnn
          _ ≤ ((LOCATIONS.get d.loc).cap : ℚ) * 1.5 := min_le_left _ _
          _ = 1.5 * ((LOCATIONS.get d.loc).cap : ℚ) := by ring
    · simp only [hs, if_false, Bool.false_eq_true]
      exact ⟨hv5, by linarith⟩
  have hfield : (generate_realistic_traffic_data d now).congestionPercentage =
      roundTo 2 (((generate_realistic_traffic_data d now).vehicleCount : ℚ) /
        ((LOCATIONS.get d.loc).cap : ℚ) * 100) := by
    unfold generate_realistic_traffic_data
    dsimp only
  have hcong : ∀ v : ℤ, 5 ≤ v → (v : ℚ) ≤ 1.5 * ((LOCATIONS.get d.loc).cap : ℚ) →
      0 < roundTo 2 ((v : ℚ) / ((LOCATIONS.get d.loc).cap : ℚ) * 100) ∧
      roundTo 2 ((v : ℚ) / ((LOCATIONS.get d.loc).cap : ℚ) * 100) ≤ 150 := by
    intro v hva hvb
    have hva' : (5 : ℚ) ≤ (v : ℚ) := by exact_mod_cast hva
    have hlo : (10 / 3 : ℚ) ≤ (v : ℚ) / ((LOCATIONS.get d.loc).cap : ℚ) * 100 := by
      rw [div_mul_eq_mul_div, le_div_iff hcpos]
      linarith
    constructor
    · have hsub := sub_half_le_roundTo 2
        ((v : ℚ) / ((LOCATIONS.get d.loc).cap : ℚ) * 100)
      have h200 : (1 : ℚ) / (2 * 10 ^ 2) = 1 / 200 := by norm_num
      rw [h200] at hsub
      linarith
    · have hhi : (v : ℚ) / ((LOCATIONS.get d.loc).cap : ℚ) * 100 ≤
          ((15000 : ℤ) : ℚ) / 10 ^ 2 := by
        rw [div_mul_eq_mul_div, div_le_iff hcpos]
        push_cast
        linarith
      have h := roundTo_le_of_le 2 15000 hhi
      have h15 : ((15000 : ℤ) : ℚ) / 10 ^ 2 = 150 := by norm_num
      rw [h15] at h
      exact h
  refine ⟨hcount.1, hcount.2, ?_, ?_⟩
  · rw [hfield]
    exact (hcong _ hcount.1 hcount.2).1
  · rw [hfield]
    exact (hcong _ hcount.1 hcount.2).2

/-- Witness for C9 at a concrete draw outcome. -/
theorem vehicle_count_congestion_bounds_witness :
    (min_vehicles (LOCATIONS.get sampleDraws.loc).cap
      (calculate_rush_hour_factor sampleDraws.hour) ≤ sampleDraws.vdraw) ∧
    (sampleDraws.vdraw ≤ max_vehicles (LOCATIONS.get sampleDraws.loc).cap
      (calculate_rush_hour_factor sampleDraws.hour)) ∧
    (5 ≤ (generate_realistic_traffic_data sampleDraws 0).vehicleCount ∧
    ((generate_realistic_traffic_data sampleDraws 0).vehicleCount : ℚ) ≤
      1.5 * ((LOCATIONS.get sampleDraws.loc).cap : ℚ) ∧
    0 < (generate_realistic_traffic_data sampleDraws 0).congestionPercentage ∧
    (generate_realistic_traffic_data sampleDraws 0).congestionPercentage ≤ 150) :=
  ⟨by norm_num [sampleDraws, min_vehicles, truncQ, calculate_rush_hour_factor,
      LOCATIONS, List.get],
    by norm_num [sampleDraws, max_vehicles, truncQ, calculate_rush_hour_factor,
      LOCATIONS, List.get],
    vehicle_count_congestion_bounds sampleDraws 0
      (by norm_num [sampleDraws, min_vehicles, truncQ, calculate_rush_hour_factor,
        LOCATIONS, List.get])
      (by norm_num [sampleDraws, max_vehicles, truncQ, calculate_rush_hour_factor,
        LOCATIONS, List.get])⟩

/-- C7 counterexample: on the empty store the overview snapshot does not
return a metrics record with zero counts; it returns the no-data placeholder
(`none`). -/
theorem snapshot_empty_counterexample :
    ¬ ∃ s : Snapshot, snapshotMetrics [] 0 = some s ∧
      s.totalEvents = 0 ∧ s.recentEvents = 0 := by
  intro ⟨s, hs, _, _⟩
  simp [snapshotMetrics] at hs

/-- C7 amended: every aggregation applied to the empty store is total and
neutral: the snapshot query returns the no-data placeholder rather than
failing, and the count, window and top-locations aggregations return zero or
empty results. -/
theorem empty_store_neutral (now since : ℤ) :
    snapshotMetrics [] now = none ∧
    ([] : List Reading).length = 0 ∧
    windowQ [] since = [] ∧
    toploc [] = [] := by
  refine ⟨rfl, rfl, rfl, ?_⟩
  simp [toploc, groupKeys, List.mergeSort_nil]

/-- C8: the window query returns exactly the readings with timestamp at or
after the cutoff, preserves store order (it is a sublist of the store), and
is monotone: a later cutoff returns a subset of an earlier one. -/
theorem window_monotonicity (rs : List Reading) (t1 t2 : ℤ) (h : t1 ≤ t2) :
    (∀ r ∈ windowQ rs t2, r ∈ windowQ rs t1) ∧
    (windowQ rs t1).Sublist rs ∧
    (∀ r : Reading, r ∈ windowQ rs t1 ↔ r ∈ rs ∧ t1 ≤ r.ts) := by
  refine ⟨?_, List.filter_sublist rs, ?_⟩
  · intro r hr
    rw [windowQ, List.mem_filter] at hr ⊢
    refine ⟨hr.1, ?_⟩
    have h2 := hr.2
    simp only [decide_eq_true_eq] at h2 ⊢
    linarith
  · intro r
    rw [windowQ, List.mem_filter]
    simp only [decide_eq_true_eq]

/-- Witness for C8 on a concrete two-element store with cutoffs 0 ≤ 5. -/
theorem window_monotonicity_witness :
    (∀ r ∈ windowQ [mkReading 0, mkReading 10] 5,
      r ∈ windowQ [mkReading 0, mkReading 10] 0) ∧
    (windowQ [mkReading 0, mkReading 10] 0).Sublist [mkReading 0, mkReading 10] ∧
    (∀ r : Reading, r ∈ windowQ [mkReading 0, mkReading 10] 0 ↔
      r ∈ [mkReading 0, mkReading 10] ∧ 0 ≤ r.ts) :=
  window_monotonicity [mkReading 0, mkReading 10] 0 5 (by decide)

/-- C10: a tick appends an alert record exactly when detection returns a
non-empty category list, and every record of an alert log built by ticks from
the empty state carries non-empty categories together with the triggering
reading's timestamp, location name and the reading itself. -/
theorem alert_log_iff_detected :
    (∀ (s : DashState) (ev : Reading),
      (tick s ev).alerts =
        (if detect_anomaly ev = [] then s.alerts else s.alerts ++ [mkAlert ev]) ∧
      ((tick s ev).alerts ≠ s.alerts ↔ detect_anomaly ev ≠ [])) ∧
    (∀ evs : List Reading, ∀ a ∈ (evs.foldl tick ⟨[], []⟩).alerts,
      detect_anomaly a.raw ≠ [] ∧ a.timestamp = a.raw.ts ∧
      a.location = a.raw.locationName ∧
      a.event = String.intercalate ", " (detect_anomaly a.raw)) := by
  have hstep : ∀ (s : DashState) (ev : Reading),
      (tick s ev).alerts =
        (if detect_anomaly ev = [] then s.alerts else s.alerts ++ [mkAlert ev]) := by
    intro s ev
    by_cases h : detect_anomaly ev = []
    · simp [tick, h]
    · simp [tick, h]
  have happend : ∀ (s : DashState) (ev : Reading),
      s.alerts ++ [mkAlert ev] ≠ s.alerts := by
    intro s ev hEq
    have hlen := congrArg List.length hEq
    simp only [List.length_append, List.length_singleton] at hlen
    omega
  have hne : ∀ (s : DashState) (ev : Reading),
      ((tick s ev).alerts ≠ s.alerts ↔ detect_anomaly ev ≠ []) := by
    intro s ev
    rw [hstep]
    by_cases h : detect_anomaly ev = []
    · simp [h]
    · simp only [h, if_false]
      exact ⟨fun _ => h, fun _ => happend s ev⟩
  have hinv : ∀ (evs : List Reading) (s0 : DashState),
      (∀ a ∈ s0.alerts, detect_anomaly a.raw ≠ [] ∧ a.timestamp = a.raw.ts ∧
        a.location = a.raw.locationName ∧
        a.event = String.intercalate ", " (detect_anomaly a.raw)) →
      ∀ a ∈ (evs.foldl tick s0).alerts,
        detect_anomaly a.raw ≠ [] ∧ a.timestamp = a.raw.ts ∧
        a.location = a.raw.locationName ∧
        a.event = String.intercalate ", " (detect_anomaly a.raw) := by
    intro evs
    induction evs with
    | nil => intro s0 h0; simpa using h0
    | cons ev evs ih =>
        intro s0 h0
        rw [List.foldl_cons]
        apply ih
        intro a ha
        rw [hstep] at ha
        by_cases h : detect_anomaly ev = []
        · rw [if_pos h] at ha
          exact h0 a ha
        · rw [if_neg h] at ha
          rcases List.mem_append.mp ha with h1 | h2
          · exact h0 a h1
          · have ha2 : a = mkAlert ev := by simpa using h2
            subst ha2
            exact ⟨h, rfl, rfl, rfl⟩
  exact ⟨fun s ev => ⟨hstep s ev, hne s ev⟩, fun evs => hinv evs ⟨[], []⟩ (by simp)⟩

/-- Witness for C10: the Scenario C reading triggers detection, and the
record it leaves in the alert log satisfies the invariant. -/
theorem alert_log_iff_detected_witness :
    detect_anomaly (mkAlert scenarioC).raw ≠ [] ∧
    (mkAlert scenarioC).timestamp = (mkAlert scenarioC).raw.ts ∧
    (mkAlert scenarioC).location = (mkAlert scenarioC).raw.locationName ∧
    (mkAlert scenarioC).event =
      String.intercalate ", " (detect_anomaly (mkAlert scenarioC).raw) :=
  alert_log_iff_detected.2 [scenarioC] (mkAlert scenarioC) (by decide)

lemma congDescLe_trans : ∀ (a b c : String × ℚ),
    congDescLe a b → congDescLe b c → congDescLe a c := by
  intro a b c
  simp only [congDescLe, decide_eq_true_eq]
  exact fun h1 h2 => le_trans h2 h1

lemma congDescLe_total : ∀ (a b : String × ℚ),
    congDescLe a b || congDescLe b a := by
  intro a b
  simp only [congDescLe, Bool.or_eq_true, decide_eq_true_eq]
  exact le_total b.2 a.2

lemma congLexLe_trans : ∀ (a b c : String × ℚ),
    congLexLe a b → congLexLe b c → congLexLe a c := by
  intro a b c
  simp only [congLexLe, decide_eq_true_eq]
  rintro (h1 | ⟨e1, n1⟩) (h2 | ⟨e2, n2⟩)
  · exact Or.inl (by linarith)
  · exact Or.inl (by rw [← e2]; exact h1)
  · exact Or.inl (by rw [e1]; exact h2)
  · exact Or.inr ⟨e1.trans e2, le_trans n1 n2⟩

lemma congLexLe_total : ∀ (a b : String × ℚ),
    congLexLe a b || congLexLe b a := by
  intro a b
  simp only [congLexLe, Bool.or_eq_true, decide_eq_true_eq]
  rcases lt_trichotomy a.2 b.2 with h | h | h
  · exact Or.inr (Or.inl h)
  · rcases le_total a.1 b.1 with hn | hn
    · exact Or.inl (Or.inr ⟨h, hn⟩)
    · exact Or.inr (Or.inr ⟨h.symm, hn⟩)
  · exact Or.inl (Or.inl h)

lemma congLex_antisymm : ∀ a b : String × ℚ, CongLex a b → CongLex b a → a = b := by
  intro a b h1 h2
  rcases h1 with h1 | ⟨e1, n1⟩
  · rcases h2 with h2 | ⟨e2, n2⟩
    · exact absurd h2 (lt_asymm h1)
    · exact absurd (e2 ▸ h1) (lt_irrefl _)
  · rcases h2 with h2 | ⟨e2, n2⟩
    · exact absurd h2 (by rw [e1]; exact lt_irrefl _)
    · exact Prod.ext (le_antisymm n1 n2) e1

lemma pair_sublist_of_key_lt :
    ∀ (A : List (String × ℚ)), A.Pairwise (fun a b => a.1 < b.1) →
      ∀ {x y : String × ℚ}, x ∈ A → y ∈ A → x.1 < y.1 → [x, y] <+ A := by
  intro A
  induction A with
  | nil =>
      intro _ x y hx _ _
      cases hx
  | cons a A ih =>
      intro hA x y hx hy hxy
      rcases List.pairwise_cons.mp hA with ⟨ha, hA2⟩
      rcases List.mem_cons.mp hx with rfl | hx2
      · have hy2 : y ∈ A := by
          rcases List.mem_cons.mp hy with h | h
          · exact absurd hxy (by rw [h]; exact lt_irrefl _)
          · exact h
        exact (List.singleton_sublist.mpr hy2).cons₂ _
      · have hy2 : y ∈ A := by
          rcases List.mem_cons.mp hy with h | h
          · exact absurd (lt_trans (ha x hx2) hxy) (by rw [h]; exact lt_irrefl _)
          · exact h
        exact (ih hA2 hx2 hy2 hxy).cons _

lemma pairwise_congLex_of_stable :
    ∀ (L : List (String × ℚ)), L.Nodup →
      L.Pairwise (fun a b => b.2 ≤ a.2) →
      (∀ x y : String × ℚ, x ∈ L → y ∈ L → x.2 = y.2 → x.1 < y.1 → [x, y] <+ L) →
      L.Pairwise CongLex := by
  intro L
  induction L with
  | nil =>
      intro _ _ _
      exact List.Pairwise.nil
  | cons a L ih =>
      intro hnd hdesc hstab
      rcases List.pairwise_cons.mp hdesc with ⟨hd, hdesc2⟩
      rcases List.nodup_cons.mp hnd with ⟨hna, hnd2⟩
      refine List.Pairwise.cons ?_ (ih hnd2 hdesc2 ?_)
      · intro b hb
        rcases lt_or_eq_of_le (hd b hb) with hlt | heq
        · exact Or.inl hlt
        · by_cases hab : a.1 ≤ b.1
          · exact Or.inr ⟨heq.symm, hab⟩
          · push_neg at hab
            have hsub : [b, a] <+ a :: L :=
              hstab b a (List.mem_cons_of_mem _ hb) (List.mem_cons_self _ _) heq hab
            cases hsub with
            | cons _ h2 => exact absurd (h2.subset (by simp)) hna
            | cons₂ h2 => exact absurd hab (lt_irrefl _)
      · intro x y hx hy he hn
        have hs := hstab x y (List.mem_cons_of_mem _ hx) (List.mem_cons_of_mem _ hy) he hn
        cases hs with
        | cons _ h2 => exact h2
        | cons₂ h2 => exact absurd hx hna

lemma stable_sort_eq_lex_sort (A : List (String × ℚ))
    (hkeys : A.Pairwise (fun a b => a.1 < b.1)) :
    A.mergeSort congDescLe = A.mergeSort congLexLe := by
  have hnd : A.Nodup :=
    hkeys.imp (fun h => by intro heq; rw [heq] at h; exact lt_irrefl _ h)
  have hLnd : (A.mergeSort congDescLe).Nodup :=
    (List.mergeSort_perm A congDescLe).nodup_iff.mpr hnd
  have hLdesc : (A.mergeSort congDescLe).Pairwise (fun a b : String × ℚ => b.2 ≤ a.2) :=
    (List.sorted_mergeSort congDescLe_trans congDescLe_total A).imp
      (fun h => by simpa [congDescLe] using h)
  have hstab : ∀ x y : String × ℚ, x ∈ A.mergeSort congDescLe →
      y ∈ A.mergeSort congDescLe → x.2 = y.2 → x.1 < y.1 →
      [x, y] <+ A.mergeSort congDescLe := by
    intro x y hxL hyL he hn
    have hxA : x ∈ A := List.mem_mergeSort.mp hxL
    have hyA : y ∈ A := List.mem_mergeSort.mp hyL
    exact List.pair_sublist_mergeSort congDescLe_trans congDescLe_total
      (by simp [congDescLe, he]) (pair_sublist_of_key_lt A hkeys hxA hyA hn)
  have hLsorted : (A.mergeSort congDescLe).Pairwise CongLex :=
    pairwise_congLex_of_stable _ hLnd hLdesc hstab
  have hMsorted : (A.mergeSort congLexLe).Pairwise CongLex :=
    (List.sorted_mergeSort congLexLe_trans congLexLe_total A).imp
      (fun h => of_decide_eq_true h)
  have hperm : A.mergeSort congDescLe ~ A.mergeSort congLexLe :=
    (List.mergeSort_perm A congDescLe).trans (List.mergeSort_perm A congLexLe).symm
  exact @List.eq_of_perm_of_sorted _ CongLex ⟨congLex_antisymm⟩ _ _ hperm hLsorted hMsorted

lemma lex_sort_eq_of_perm (A B : List (String × ℚ)) (h : A ~ B) :
    A.mergeSort congLexLe = B.mergeSort congLexLe := by
  have hperm : A.mergeSort congLexLe ~ B.mergeSort congLexLe :=
    ((List.mergeSort_perm A congLexLe).trans h).trans
      (List.mergeSort_perm B congLexLe).symm
  exact @List.eq_of_perm_of_sorted _ CongLex ⟨congLex_antisymm⟩ _ _ hperm
    ((List.sorted_mergeSort congLexLe_trans congLexLe_total A).imp
      (fun h2 => of_decide_eq_true h2))
    ((List.sorted_mergeSort congLexLe_trans congLexLe_total B).imp
      (fun h2 => of_decide_eq_true h2))

/-- C6: the top-congested-locations table of the Analytics tab groups the
readings by location name, takes each group's mean congestion, sorts
descending by that mean with ties broken by location name ascending, and
returns the first 10 rows. -/
theorem toploc_matches_spec (rs : List Reading) : toploc rs = toplocSpec rs := by
  have strans : ∀ a b c : String,
      (fun a b : String => decide (a ≤ b)) a b →
      (fun a b : String => decide (a ≤ b)) b c →
      (fun a b : String => decide (a ≤ b)) a c := by
    intro a b c
    simp only [decide_eq_true_eq]
    exact le_trans
  have stotal : ∀ a b : String,
      ((fun a b : String => decide (a ≤ b)) a b ||
        (fun a b : String => decide (a ≤ b)) b a) := by
    intro a b
    simp only [Bool.or_eq_true, decide_eq_true_eq]
    exact le_total a b
  have hle : (groupKeys rs).Pairwise (fun a b : String => a ≤ b) := by
    unfold groupKeys
    exact (List.sorted_mergeSort strans stotal _).imp (fun h => of_decide_eq_true h)
  have hnd : (groupKeys rs).Nodup := by
    unfold groupKeys
    exact (List.mergeSort_perm _ _).nodup_iff.mpr (List.nodup_dedup _)
  have hstrict : (groupKeys rs).Pairwise (fun a b : String => a < b) :=
    (hle.and hnd).imp (fun h => lt_of_le_of_ne h.1 h.2)
  have hAkeys : ((groupKeys rs).map (fun n => (n, meanCong rs n))).Pairwise
      (fun a b => a.1 < b.1) := by
    rw [List.pairwise_map]
    exact hstrict
  have hperm : (groupKeys rs).map (fun n => (n, meanCong rs n)) ~
      ((rs.map (fun r => r.locationName)).dedup).map (fun n => (n, meanCong rs n)) := by
    unfold groupKeys
    exact (List.mergeSort_perm _ _).map _
  unfold toploc toplocSpec
  rw [stable_sort_eq_lex_sort _ hAkeys, lex_sort_eq_of_perm _ _ hperm]
